import Mathlib

/-
Verification of the search-query construction core of the annotation-search
service (files src/h/search/query.py, src/h/search/core.py and
src/h/general_settings.py), against its natural-language specification.

The parameter bag is modelled after webob.multidict.MultiDict: an ordered
list of key/value pairs where indexing returns the most recently added value
for a key and deletion removes every pair with that key.  The
elasticsearch_dsl Search object is modelled by the lists of clauses the
modifiers append to it (filter context, query/must context, excludes) plus
the result window set by slicing.
-/

/-- A parameter bag: an ordered multi-valued mapping from parameter name to
string values, modelling webob.multidict.MultiDict (and, when every key is
unique, a plain python dict). -/
abbrev Params := List (String × String)

/-- MultiDict.getall: every value stored for a key, in insertion order; the
bag is not mutated. -/
def getall (ps : Params) (k : String) : List String :=
  (ps.filter (fun kv => kv.1 == k)).map (fun kv => kv.2)

/-- MultiDict.__getitem__: the most recently added value for a key (webob
scans the pair list in reverse), or none when the key is absent. -/
def multidict_get (ps : Params) (k : String) : Option String :=
  ((ps.filter (fun kv => kv.1 == k)).map (fun kv => kv.2)).getLast?

/-- MultiDict.__delitem__: removes every pair whose key matches. -/
def multidict_del (ps : Params) (k : String) : Params :=
  ps.filter (fun kv => !(kv.1 == k))

/-- MultiDict.pop(key): returns the value `__getitem__` would return and
removes every pair with that key; on a missing key the bag is unchanged and
the python code receives a KeyError, modelled by `none`. -/
def multidict_pop (ps : Params) (k : String) : Option String × Params :=
  match multidict_get ps k with
  | none => (none, ps)
  | some v => (some v, multidict_del ps k)

/-- Whether the bag still holds at least one pair with the given key. -/
def hasKey (ps : Params) (k : String) : Bool :=
  ps.any (fun kv => kv.1 == k)

/-- Abstract syntax of the elasticsearch_dsl Q objects the modifiers build:
term / terms / exists / match / wildcard / simple_query_string leaves and
the bool compound with its must, must_not and should clause lists. -/
inductive EsQuery where
  | termB (field : String) (value : Bool)
  | termS (field : String) (value : String)
  | terms (field : String) (values : List String)
  | existsQ (field : String)
  | matchQ (field : String) (value : String)
  | matchOpQ (field : String) (query : String) (operator : String)
  | simpleQS (query : String) (fields : List String)
  | wildcardQ (field : String) (pattern : String)
  | boolQ (must : List EsQuery) (must_not : List EsQuery) (should : List EsQuery)
deriving Repr

/-- The elasticsearch_dsl Search accumulator, restricted to the components
the claims touch: the filter-context clause list (search.filter), the
query/must clause list (search.query), the excluded clauses (search.exclude)
and the result window set by slicing search[start:stop]. -/
structure EsSearch where
  filters : List EsQuery := []
  musts : List EsQuery := []
  excludes : List EsQuery := []
  window : Option (Int × Int) := none
deriving Repr

/-- Truth value of a leaf query on the current document; supplied externally
because leaf semantics (analysis, index mappings) live in Elasticsearch. -/
abbrev LeafSem := EsQuery → Bool

mutual

/-- Boolean semantics of a query under a leaf valuation: a bool compound
requires every must clause, forbids every must_not clause, and requires at
least one should clause exactly when the should list is non-empty and the
must list is empty (the Elasticsearch default for minimum_should_match). -/
def evalQ (leaf : LeafSem) : EsQuery → Bool
  | .boolQ must must_not should =>
      evalAll leaf must && evalNone leaf must_not &&
      (should.isEmpty || ! must.isEmpty || evalAny leaf should)
  | q => leaf q

/-- Every query in the list holds. -/
def evalAll (leaf : LeafSem) : List EsQuery → Bool
  | [] => true
  | q :: qs => evalQ leaf q && evalAll leaf qs

/-- No query in the list holds. -/
def evalNone (leaf : LeafSem) : List EsQuery → Bool
  | [] => true
  | q :: qs => (! evalQ leaf q) && evalNone leaf qs

/-- At least one query in the list holds. -/
def evalAny (leaf : LeafSem) : List EsQuery → Bool
  | [] => false
  | q :: qs => evalQ leaf q || evalAny leaf qs

end

/-- Conjunction of every clause a search has accumulated: filter-context
clauses and must clauses all hold, excluded clauses all fail. -/
def evalSearch (leaf : LeafSem) (s : EsSearch) : Bool :=
  (s.filters.all (evalQ leaf)) &&
  (s.musts.all (evalQ leaf)) &&
  (s.excludes.all fun q => ! evalQ leaf q)

/- ------------------------------------------------------------------ -/
/- Python int() on strings, as used by Limiter (src/h/search/query.py) -/
/- ------------------------------------------------------------------ -/

/-- Characters stripped from both ends by python int(str): ASCII whitespace.
(Unicode whitespace and unicode digits are not modelled.) -/
def pySpace (c : Char) : Bool :=
  c == ' ' || c == '\t' || c == '\n' || c == '\r' || c == '\x0b' || c == '\x0c'

/-- Digit run accumulator: after an initial digit, python allows further
digits with single underscores strictly between digits. -/
def pyDigitsAux : Nat → List Char → Option Nat
  | acc, [] => some acc
  | acc, '_' :: c :: cs =>
      if c.isDigit then pyDigitsAux (acc * 10 + (c.toNat - 48)) cs else none
  | acc, c :: cs =>
      if c.isDigit then pyDigitsAux (acc * 10 + (c.toNat - 48)) cs else none

/-- A non-empty digit run (underscores permitted between digits) and its
value; none when the run is empty or malformed. -/
def pyDigits : List Char → Option Nat
  | [] => none
  | c :: cs => if c.isDigit then pyDigitsAux (c.toNat - 48) cs else none

/-- python int(s) for a string s: strip ASCII whitespace, optional sign,
then a digit run; none models the ValueError raised on any other shape. -/
def pyInt (s : String) : Option Int :=
  let cs := ((s.toList.dropWhile pySpace).reverse.dropWhile pySpace).reverse
  match cs with
  | '+' :: rest => (pyDigits rest).map (fun n => (n : Int))
  | '-' :: rest => (pyDigits rest).map (fun n => -(n : Int))
  | rest => (pyDigits rest).map (fun n => (n : Int))

/- ------------------------------------------------------------ -/
/- src/h/search/query.py                                        -/
/- ------------------------------------------------------------ -/

/-- LIMIT_DEFAULT from src/h/search/query.py line 9. -/
def LIMIT_DEFAULT : Int := 20

/-- LIMIT_MAX from src/h/search/query.py line 10. -/
def LIMIT_MAX : Int := 200

/-- Limiter._extract_offset (query.py lines 39-47): pop "offset", parse it
as int, raise-and-catch on a negative value; any failure yields 0.  The pop
happens before validation, so the key is consumed even on garbage. -/
def Limiter_extract_offset (ps : Params) : Int × Params :=
  let r := multidict_pop ps "offset"
  match r.1 with
  | none => (0, r.2)
  | some v =>
      match pyInt v with
      | none => (0, r.2)
      | some n => if n < 0 then (0, r.2) else (n, r.2)

/-- Limiter._extract_limit (query.py lines 49-58): pop "limit", parse as
int, cap at LIMIT_MAX, raise-and-catch on a negative value; any failure
yields LIMIT_DEFAULT. -/
def Limiter_extract_limit (ps : Params) : Int × Params :=
  let r := multidict_pop ps "limit"
  match r.1 with
  | none => (LIMIT_DEFAULT, r.2)
  | some v =>
      match pyInt v with
      | none => (LIMIT_DEFAULT, r.2)
      | some n =>
          let m := min n LIMIT_MAX
          if m < 0 then (LIMIT_DEFAULT, r.2) else (m, r.2)

/-- The offset value Limiter computes for a bag. -/
def limiterOffset (ps : Params) : Int := (Limiter_extract_offset ps).1

/-- The limit value Limiter computes for a bag (the limit pop runs on the
bag the offset extraction already consumed). -/
def limiterLimit (ps : Params) : Int :=
  (Limiter_extract_limit (Limiter_extract_offset ps).2).1

/-- Limiter.__call__ (query.py lines 34-37): extract offset then limit and
slice the search to the window [offset, offset + limit). -/
def Limiter_call (s : EsSearch) (ps : Params) : EsSearch × Params :=
  let r1 := Limiter_extract_offset ps
  let r2 := Limiter_extract_limit r1.2
  ({ s with window := some (r1.1, r1.1 + r2.1) }, r2.2)

/-- KeyValueMatcher.__call__ (query.py lines 21-24): one filter-context
match clause per remaining key/value pair, in bag order; the bag is read
without being consumed. -/
def KeyValueMatcher_call (s : EsSearch) (ps : Params) : EsSearch × Params :=
  ({ s with filters := s.filters ++ ps.map (fun kv => EsQuery.matchQ kv.1 kv.2) }, ps)

/-- AuthFilter.__call__ (query.py lines 124-131): with no authenticated
user, filter on term shared=true; with a user, filter on a bool whose
should list is [term shared=true, term user_raw=userid]. -/
def AuthFilter_call (authenticated_userid : Option String)
    (s : EsSearch) (ps : Params) : EsSearch × Params :=
  match authenticated_userid with
  | none => ({ s with filters := s.filters ++ [.termB "shared" true] }, ps)
  | some userid =>
      ({ s with filters := s.filters ++
          [.boolQ [] [] [.termB "shared" true, .termS "user_raw" userid]] }, ps)

/-- A user as NipsaFilter sees one: just the userid attribute is read. -/
structure User where
  userid : String

/-- NipsaFilter._nipsa_filter (query.py lines 258-292): a single
filter-context bool whose should list is, in order, (a) not nipsa-flagged,
(b) thread_ids exists, then when a user is present (c) term user equal to
the lower-cased userid, and when that user additionally created at least
one group (d) terms group over the created groups. -/
def NipsaFilter_call (user : Option User) (groupids_created_by : User → List String)
    (s : EsSearch) (ps : Params) : EsSearch × Params :=
  let base : List EsQuery :=
    [.boolQ [] [.termB "nipsa" true] [], .existsQ "thread_ids"]
  let should_clauses : List EsQuery :=
    match user with
    | none => base
    | some u =>
        let withUser := base ++ [.termS "user" u.userid.toLower]
        let created_groups := groupids_created_by u
        if created_groups.isEmpty then withUser
        else withUser ++ [.terms "group" created_groups]
  ({ s with filters := s.filters ++ [.boolQ [] [] should_clauses] }, ps)

/-- Set union accumulator for the uris set built by UriWildcardFilter:
python set insertion modelled as order-preserving insertion without
duplicates (python set iteration order is unspecified; the bool should list
built from it is order-insensitive under evalQ up to permutation). -/
def insertNew (acc : List String) (v : String) : List String :=
  if acc.contains v then acc else acc ++ [v]

/-- The set of normalized expansions of every wildcard_uri value: for each
supplied uri, storage.expand_uri produces the equivalent uris, each is
normalized by h.util.uri.normalize, and the normalized forms are unioned. -/
def wildcardUris (expand_uri : String → List String) (normalize : String → String)
    (query_uris : List String) : List String :=
  query_uris.foldl
    (fun acc qu => ((expand_uri qu).map normalize).foldl insertNew acc) []

/-- UriWildcardFilter.__call__ (query.py lines 175-185): reads every
wildcard_uri value with getall (which does NOT remove the key from the
bag), expands and normalizes each into a union set, and adds one query
(must-context) bool whose should list holds one wildcard clause on
target.scope per uri in the set. -/
def UriWildcardFilter_call (expand_uri : String → List String)
    (normalize : String → String) (s : EsSearch) (ps : Params) : EsSearch × Params :=
  let query_uris := getall ps "wildcard_uri"
  let uris := wildcardUris expand_uri normalize query_uris
  ({ s with musts := s.musts ++
      [.boolQ [] [] (uris.map (fun u => EsQuery.wildcardQ "target.scope" u))] }, ps)

/-- RepliesMatcher.__call__ (query.py lines 342-345): a query-context bool
whose must list is a single terms clause on references over the given
annotation ids. -/
def RepliesMatcher_call (annotation_ids : List String)
    (s : EsSearch) (ps : Params) : EsSearch × Params :=
  ({ s with musts := s.musts ++
      [.boolQ [.terms "references" annotation_ids] [] []] }, ps)

/- ------------------------------------------------------------ -/
/- urllib.parse.urlparse, as used by wildcard_uri_is_valid      -/
/- (src/h/general_settings.py imports it through h._compat)     -/
/- ------------------------------------------------------------ -/

/-- Membership of a character in a string. -/
def strContains (s : String) (c : Char) : Bool :=
  s.toList.contains c

/-- scheme_chars from urllib.parse: the characters a URI scheme may use. -/
def scheme_chars : List Char :=
  "abcdefghijklmnopqrstuvwxyzABCDEFGHIJKLMNOPQRSTUVWXYZ0123456789+-.".toList

/-- The components of urlparse that wildcard_uri_is_valid reads: the scheme,
the netloc (authority/host) and the unsplit remainder. -/
structure UrlParts where
  scheme : String
  netloc : String
  rest : String
deriving Repr

/-- Modelled from CPython urlsplit scheme extraction: if the first colon is
preceded by a non-empty run starting with an ASCII letter and made only of
scheme characters, that run (lower-cased) is the scheme and parsing resumes
after the colon; otherwise there is no scheme.  (The control-character
stripping and the IPv6 bracket ValueError of some CPython patch levels are
not modelled; no claim input exercises them.) -/
def splitScheme (cs : List Char) : List Char × List Char :=
  match cs.findIdx? (fun c => c == ':') with
  | some i =>
      if 0 < i
          && (match cs.head? with
              | some c => c.isAlpha
              | none => false)
          && (cs.take i).all (fun c => scheme_chars.contains c)
      then ((cs.take i).map Char.toLower, cs.drop (i + 1))
      else ([], cs)
  | none => ([], cs)

/-- Modelled from CPython _splitnetloc: after a leading double slash the
netloc extends to the first of slash, question mark or hash. -/
def splitNetloc (cs : List Char) : List Char × List Char :=
  match cs with
  | '/' :: '/' :: rest =>
      (rest.takeWhile (fun c => !(c == '/' || c == '?' || c == '#')),
       rest.dropWhile (fun c => !(c == '/' || c == '?' || c == '#')))
  | _ => ([], cs)

/-- urlparse restricted to the fields the validator reads. -/
def urlparse (s : String) : UrlParts :=
  let p1 := splitScheme s.toList
  let p2 := splitNetloc p1.2
  { scheme := String.mk p1.1, netloc := String.mk p2.1, rest := String.mk p2.2 }

/-- wildcard_uri_is_valid (src/h/general_settings.py lines 14-37): a string
with no asterisk and no underscore is not a wildcard; otherwise parse it,
and reject when the scheme is empty or the netloc carries an asterisk or an
underscore. -/
def wildcard_uri_is_valid (wildcard_uri : String) : Bool :=
  if !(strContains wildcard_uri '*') && !(strContains wildcard_uri '_') then
    false
  else if ((urlparse wildcard_uri).scheme == "")
      || strContains (urlparse wildcard_uri).netloc '*'
      || strContains (urlparse wildcard_uri).netloc '_' then
    false
  else
    true

/- ------------------------------------------------------------ -/
/- src/h/search/core.py                                         -/
/- ------------------------------------------------------------ -/

/-- How one guarded execution of search.execute() can end: a normal return,
an elasticsearch ConnectionTimeout, or any other exception. -/
inductive ExecOutcome where
  | ok
  | connectionTimeout
  | otherError
deriving Repr, DecidableEq

/-- One call observed on the statsd pipeline object inside _instrument. -/
inductive StatsEvent where
  | timerStart
  | incr (counter : String)
  | timerStop
  | send
deriving Repr, DecidableEq

/-- Whether a stats event is a counter increment. -/
def isIncr : StatsEvent → Bool
  | .incr _ => true
  | _ => false

/-- The counter name _instrument increments for each way the guarded block
can end (core.py lines 161-169). -/
def Search_instrument_counter : ExecOutcome → String
  | .ok => "search.query.success"
  | .connectionTimeout => "search.query.timeout"
  | .otherError => "search.query.error"

/-- Search._instrument (core.py lines 153-172): with no stats client the
body runs bare; with one, the timer starts, the body runs, exactly one
counter is incremented according to how the body ended, and the finally
block stops the timer and sends the pipeline; the outcome (including either
exception, via the bare raise statements) is passed through unchanged. -/
def Search_instrument (has_stats : Bool) (body : ExecOutcome) :
    List StatsEvent × ExecOutcome :=
  if has_stats = false then ([], body)
  else
    ([.timerStart, .incr (Search_instrument_counter body), .timerStop, .send], body)

/-- Names bound at module scope of src/h/search/query.py, in definition
order: the four imports, the two numeric constants and the classes. -/
def query_module_attrs : List String :=
  ["storage", "uri", "Q", "SimpleQueryString", "LIMIT_DEFAULT", "LIMIT_MAX",
   "KeyValueMatcher", "Limiter", "Sorter", "TopLevelAnnotationsFilter",
   "AuthorityFilter", "AuthFilter", "GroupFilter", "GroupAuthFilter",
   "UriWildcardFilter", "UriFilter", "UserFilter", "DeletedFilter",
   "NipsaFilter", "AnyMatcher", "TagsMatcher", "RepliesMatcher",
   "TagsAggregation", "UsersAggregation"]

/-- Python attribute access on the query module: ok when the name is bound
there, AttributeError otherwise. -/
def getattr_query (name : String) : Except String String :=
  if query_module_attrs.contains name then Except.ok name
  else Except.error ("AttributeError: module h.search.query has no attribute " ++ name)

/-- The query.<name> attribute references evaluated, in order, while
Search.__init__ builds self._modifiers (core.py lines 45-55). -/
def Search_init_modifier_refs : List String :=
  ["Sorter", "Limiter", "DeletedFilter", "AuthFilter", "GroupFilter",
   "GroupAuthFilter", "UserFilter", "HiddenFilter", "AnyMatcher",
   "TagsMatcher", "KeyValueMatcher"]

/-- Search.__init__ evaluating its modifier list: each query.<name>
reference resolves in order and the first unbound name raises. -/
def Search_init_modifiers : Except String (List String) :=
  Search_init_modifier_refs.mapM getattr_query

/-- Names bound at module scope of src/h/search/core.py: the imports that
are live (the webob MultiDict import on line 7 is commented out) and the
module-level definitions. -/
def core_module_globals : List String :=
  ["logging", "namedtuple", "contextmanager", "ConnectionTimeout", "query",
   "log", "SearchResult", "Search"]

/-- The second, reply-fetching query as Search._search_replies builds it:
the ids RepliesMatcher is constructed over (prepended to self._modifiers),
the aggregation list (passed as the empty literal) and the parameter bag. -/
structure RepliesQuery where
  replies_matcher_ids : List String
  aggregations : List String
  params : Params
deriving Repr

/-- The argument MultiDict(\x7b'limit': self._replies_limit\x7d) evaluated on
core.py line 133: the name MultiDict has to resolve in the module scope
before the bag can be built. -/
def Search_search_replies_params (replies_limit : Int) : Except String Params :=
  if core_module_globals.contains "MultiDict" then
    Except.ok [("limit", toString replies_limit)]
  else
    Except.error "NameError: name MultiDict is not defined"

/-- Search._search_replies (core.py lines 123-142): with separate_replies
off it returns the empty list at once, issuing no second query; otherwise
it builds the replies parameter bag and hands the second query (a
RepliesMatcher over the primary ids prepended to the modifier chain, no
aggregations, the fresh bag) to the execution adapter, whose hit ids it
returns. -/
def Search_search_replies (execute : RepliesQuery → List String)
    (separate_replies : Bool) (replies_limit : Int)
    (annotation_ids : List String) : Except String (List String) :=
  if separate_replies = false then
    Except.ok []
  else
    (Search_search_replies_params replies_limit).map
      (fun bag => execute
        { replies_matcher_ids := annotation_ids, aggregations := [], params := bag })

/- ------------------------------------------------------------ -/
/- Supporting lemmas on the parameter bag                       -/
/- ------------------------------------------------------------ -/

lemma filter_stable_of_imp {α : Type} (l : List α) (p q : α → Bool)
    (hpq : ∀ a, q a = true → p a = true) :
    (l.filter p).filter q = l.filter q := by
  induction l with
  | nil => rfl
  | cons hd tl ih =>
      cases hq : q hd
      · cases hp : p hd <;> simp [List.filter_cons, hp, hq, ih]
      · simp [List.filter_cons, hpq hd hq, hq, ih]

lemma any_eq_false_filter {α : Type} (l : List α) (p q : α → Bool)
    (h : l.any q = false) : (l.filter p).any q = false := by
  induction l with
  | nil => rfl
  | cons hd tl ih =>
      simp only [List.any_cons, Bool.or_eq_false_iff] at h
      cases hp : p hd <;> simp [List.filter_cons, hp, List.any_cons, h.1, ih h.2]

lemma filter_eq_nil_of_any_false {α : Type} (l : List α) (q : α → Bool)
    (h : l.any q = false) : l.filter q = [] := by
  induction l with
  | nil => rfl
  | cons hd tl ih =>
      simp only [List.any_cons, Bool.or_eq_false_iff] at h
      simp [List.filter_cons, h.1, ih h.2]

lemma multidict_get_del (ps : Params) (k k2 : String) (h : k ≠ k2) :
    multidict_get (multidict_del ps k) k2 = multidict_get ps k2 := by
  unfold multidict_get multidict_del
  rw [filter_stable_of_imp]
  intro a ha
  simp only [beq_iff_eq] at ha
  simp [ha, beq_eq_false_iff_ne]
  exact fun hk => h (hk.symm)

lemma hasKey_del_self (ps : Params) (k : String) :
    hasKey (multidict_del ps k) k = false := by
  unfold hasKey multidict_del
  induction ps with
  | nil => rfl
  | cons hd tl ih =>
      cases hk : hd.1 == k <;> simp [List.filter_cons, hk, List.any_cons, ih]

lemma hasKey_del_other (ps : Params) (k k2 : String) (h : hasKey ps k2 = false) :
    hasKey (multidict_del ps k) k2 = false := by
  unfold hasKey multidict_del
  exact any_eq_false_filter ps _ _ h

lemma multidict_get_none_of_hasKey (ps : Params) (k : String) (h : hasKey ps k = false) :
    multidict_get ps k = none := by
  unfold multidict_get
  rw [filter_eq_nil_of_any_false ps _ h]
  rfl

lemma hasKey_false_of_get_none (ps : Params) (k : String) (h : multidict_get ps k = none) :
    hasKey ps k = false := by
  unfold multidict_get at h
  rw [List.getLast?_eq_none_iff, List.map_eq_nil_iff, List.filter_eq_nil_iff] at h
  unfold hasKey
  rw [List.any_eq_false]
  intro x hx
  simp only [Bool.not_eq_true]
  exact (Bool.not_eq_true _).mp (by simpa using h x hx)

lemma multidict_pop_snd_hasKey_self (ps : Params) (k : String) :
    hasKey (multidict_pop ps k).2 k = false := by
  unfold multidict_pop
  cases h : multidict_get ps k with
  | none =>
      simpa using hasKey_false_of_get_none ps k h
  | some v =>
      simpa using hasKey_del_self ps k

lemma multidict_pop_snd_hasKey_other (ps : Params) (k k2 : String)
    (h : hasKey ps k2 = false) : hasKey (multidict_pop ps k).2 k2 = false := by
  unfold multidict_pop
  cases hg : multidict_get ps k with
  | none => simpa using h
  | some v => simpa using hasKey_del_other ps k k2 h

lemma multidict_pop_snd_get_other (ps : Params) (k k2 : String) (h : k ≠ k2) :
    multidict_get (multidict_pop ps k).2 k2 = multidict_get ps k2 := by
  unfold multidict_pop
  cases hg : multidict_get ps k with
  | none => rfl
  | some v => simpa using multidict_get_del ps k k2 h

lemma Limiter_extract_offset_snd (ps : Params) :
    (Limiter_extract_offset ps).2 = (multidict_pop ps "offset").2 := by
  unfold Limiter_extract_offset
  cases hv : (multidict_pop ps "offset").1 with
  | none => simp only [hv]
  | some s =>
      cases hi : pyInt s with
      | none => simp only [hv, hi]
      | some n =>
          simp only [hv, hi]
          split <;> rfl

lemma Limiter_extract_limit_snd (ps : Params) :
    (Limiter_extract_limit ps).2 = (multidict_pop ps "limit").2 := by
  unfold Limiter_extract_limit
  cases hv : (multidict_pop ps "limit").1 with
  | none => simp only [hv]
  | some s =>
      cases hi : pyInt s with
      | none => simp only [hv, hi]
      | some n =>
          simp only [hv, hi]
          split <;> rfl

/-- C10: after Limiter runs on any parameter bag, the keys offset and limit
are both absent from the bag: the pops happen before the values are
validated, so the keys are consumed even when their values are non-numeric
or negative, and can never reach the catch-all key-value matcher. -/
theorem limiter_consumes_pagination_keys :
    ∀ (s : EsSearch) (ps : Params),
      hasKey (Limiter_call s ps).2 "offset" = false ∧
      hasKey (Limiter_call s ps).2 "limit" = false := by
  intro s ps
  have hsnd : (Limiter_call s ps).2 = (Limiter_extract_limit (Limiter_extract_offset ps).2).2 := rfl
  rw [hsnd, Limiter_extract_limit_snd, Limiter_extract_offset_snd]
  constructor
  · exact multidict_pop_snd_hasKey_other _ _ _ (multidict_pop_snd_hasKey_self ps "offset")
  · exact multidict_pop_snd_hasKey_self _ "limit"

lemma multidict_pop_fst (ps : Params) (k : String) :
    (multidict_pop ps k).1 = multidict_get ps k := by
  unfold multidict_pop
  cases h : multidict_get ps k <;> simp [h]

lemma Limiter_extract_offset_fst_char (ps : Params) :
    (Limiter_extract_offset ps).1 =
      match (multidict_pop ps "offset").1 with
      | none => (0 : Int)
      | some v =>
          match pyInt v with
          | none => 0
          | some n => if n < 0 then 0 else n := by
  unfold Limiter_extract_offset
  cases hv : (multidict_pop ps "offset").1 with
  | none => simp only [hv]
  | some s =>
      cases hi : pyInt s with
      | none => simp only [hv, hi]
      | some n =>
          simp only [hv, hi]
          by_cases hn : n < 0 <;> simp [hn]

lemma Limiter_extract_limit_fst_char (ps : Params) :
    (Limiter_extract_limit ps).1 =
      match (multidict_pop ps "limit").1 with
      | none => (20 : Int)
      | some v =>
          match pyInt v with
          | none => 20
          | some n => if n < 0 then 20 else min n 200 := by
  unfold Limiter_extract_limit
  cases hv : (multidict_pop ps "limit").1 with
  | none => simp only [hv]; rfl
  | some s =>
      cases hi : pyInt s with
      | none => simp only [hv, hi]; rfl
      | some n =>
          simp only [hv, hi]
          by_cases hn : n < 0
          · have hm : min n LIMIT_MAX < 0 := by unfold LIMIT_MAX; omega
            simp [hm, hn, LIMIT_DEFAULT]
          · have hm : ¬ (min n LIMIT_MAX < 0) := by unfold LIMIT_MAX; omega
            simp [hm, hn, LIMIT_MAX]

lemma multidict_get_limit_after_offset (ps : Params) :
    multidict_get (Limiter_extract_offset ps).2 "limit" = multidict_get ps "limit" := by
  rw [Limiter_extract_offset_snd]
  exact multidict_pop_snd_get_other ps "offset" "limit" (by decide)

lemma limiterLimit_char (ps : Params) :
    limiterLimit ps =
      match multidict_get ps "limit" with
      | none => (20 : Int)
      | some v =>
          match pyInt v with
          | none => 20
          | some n => if n < 0 then 20 else min n 200 := by
  unfold limiterLimit
  rw [Limiter_extract_limit_fst_char, multidict_pop_fst, multidict_get_limit_after_offset]

lemma limiterOffset_char (ps : Params) :
    limiterOffset ps =
      match multidict_get ps "offset" with
      | none => (0 : Int)
      | some v =>
          match pyInt v with
          | none => 0
          | some n => if n < 0 then 0 else n := by
  unfold limiterOffset
  rw [Limiter_extract_offset_fst_char, multidict_pop_fst]

/-- C4: Limiter always produces the contiguous window
[offset, offset + limit); the parsed limit lies in [0, 200], is the parsed
integer n capped at 200 when the supplied string parses to a non-negative
n, and is 20 on a missing key, a parse failure or a negative value; the
parsed offset is 0 on missing, non-numeric or negative input and passes a
valid non-negative integer through uncapped.  Both parsers are total
functions of the bag, so no parse error reaches the caller. -/
theorem limiter_window_clamping :
    (∀ (s : EsSearch) (ps : Params),
        (Limiter_call s ps).1.window =
          some (limiterOffset ps, limiterOffset ps + limiterLimit ps)) ∧
    (∀ ps : Params, 0 ≤ limiterLimit ps ∧ limiterLimit ps ≤ 200) ∧
    (∀ ps : Params, multidict_get ps "limit" = none → limiterLimit ps = 20) ∧
    (∀ (ps : Params) (v : String),
        multidict_get ps "limit" = some v → pyInt v = none → limiterLimit ps = 20) ∧
    (∀ (ps : Params) (v : String) (n : Int),
        multidict_get ps "limit" = some v → pyInt v = some n → n < 0 →
          limiterLimit ps = 20) ∧
    (∀ (ps : Params) (v : String) (n : Int),
        multidict_get ps "limit" = some v → pyInt v = some n → 0 ≤ n →
          limiterLimit ps = min n 200) ∧
    (∀ ps : Params, multidict_get ps "offset" = none → limiterOffset ps = 0) ∧
    (∀ (ps : Params) (v : String),
        multidict_get ps "offset" = some v → pyInt v = none → limiterOffset ps = 0) ∧
    (∀ (ps : Params) (v : String) (n : Int),
        multidict_get ps "offset" = some v → pyInt v = some n → n < 0 →
          limiterOffset ps = 0) ∧
    (∀ (ps : Params) (v : String) (n : Int),
        multidict_get ps "offset" = some v → pyInt v = some n → 0 ≤ n →
          limiterOffset ps = n) := by
  refine ⟨fun s ps => rfl, ?_, ?_, ?_, ?_, ?_, ?_, ?_, ?_, ?_⟩
  · intro ps
    rw [limiterLimit_char]
    split
    · decide
    · split
      · decide
      · rw [min_def]; split_ifs <;> omega
  · intro ps h; rw [limiterLimit_char, h]
  · intro ps v h hi; rw [limiterLimit_char, h]; simp [hi]
  · intro ps v n h hi hn; rw [limiterLimit_char, h]; simp [hi, hn]
  · intro ps v n h hi hn
    have hn2 : ¬ (n < 0) := by omega
    rw [limiterLimit_char, h]
    simp [hi, hn2]
  · intro ps h; rw [limiterOffset_char, h]
  · intro ps v h hi; rw [limiterOffset_char, h]; simp [hi]
  · intro ps v n h hi hn; rw [limiterOffset_char, h]; simp [hi, hn]
  · intro ps v n h hi hn
    have hn2 : ¬ (n < 0) := by omega
    rw [limiterOffset_char, h]
    simp [hi, hn2]

/-- Witness for C4 at concrete bags: a limit of 1000 is capped to 200, a
negative limit falls back to 20, offset 7 passes through and a non-numeric
offset falls back to 0. -/
theorem limiter_window_clamping_witness :
    limiterLimit [("offset", "7"), ("limit", "1000")] = min 1000 200 ∧
    limiterOffset [("offset", "7"), ("limit", "1000")] = 7 ∧
    limiterLimit [("limit", "-3")] = 20 ∧
    limiterOffset [("offset", "abc")] = 0 := by
  obtain ⟨hw, hb, hmiss, hbad, hneg, hok, homiss, hobad, honeg, hook⟩ :=
    limiter_window_clamping
  refine ⟨?_, ?_, ?_, ?_⟩
  · exact hok _ "1000" 1000 (by decide) (by decide) (by decide)
  · exact hook _ "7" 7 (by decide) (by decide) (by decide)
  · exact hneg _ "-3" (-3) (by decide) (by decide) (by decide)
  · exact hobad _ "abc" (by decide) (by decide)

lemma evalQ_leaf_matchQ (leaf : LeafSem) (f v : String) :
    evalQ leaf (.matchQ f v) = leaf (.matchQ f v) := by
  simp [evalQ]

/-- C1: AuthFilter adds exactly one filter clause: with no authenticated
user a term clause requiring shared=true, and with an authenticated user a
single bool clause requiring shared=true OR user_raw equal to that exact
userid (a disjunction of the two term clauses, not a conjunction); the
parameter bag is untouched. -/
theorem authfilter_adds_single_restriction :
    (∀ (s : EsSearch) (ps : Params),
        AuthFilter_call none s ps =
          ({ s with filters := s.filters ++ [.termB "shared" true] }, ps)) ∧
    (∀ (s : EsSearch) (ps : Params) (userid : String),
        AuthFilter_call (some userid) s ps =
          ({ s with filters := s.filters ++
              [.boolQ [] [] [.termB "shared" true, .termS "user_raw" userid]] }, ps)) ∧
    (∀ (leaf : LeafSem) (userid : String),
        evalQ leaf (.boolQ [] [] [.termB "shared" true, .termS "user_raw" userid]) =
          (leaf (.termB "shared" true) || leaf (.termS "user_raw" userid))) := by
  refine ⟨fun s ps => rfl, fun s ps userid => rfl, fun leaf userid => ?_⟩
  simp [evalQ, evalAll, evalNone, evalAny]

/-- C7: the catch-all KeyValueMatcher adds exactly one required exact-match
clause per remaining key/value pair of the bag; a bag holding only
foo=bar yields the single clause match foo=bar, and two values for the
same key yield two independent clauses whose conjunction (both required)
is the resulting filter semantics. -/
theorem keyvaluematcher_clause_per_pair :
    (∀ (s : EsSearch) (ps : Params),
        KeyValueMatcher_call s ps =
          ({ s with filters :=
              s.filters ++ ps.map (fun kv => EsQuery.matchQ kv.1 kv.2) }, ps)) ∧
    (KeyValueMatcher_call {} [("foo", "bar")]).1.filters =
      [.matchQ "foo" "bar"] ∧
    (KeyValueMatcher_call {} [("user", "fred"), ("user", "bob")]).1.filters =
      [.matchQ "user" "fred", .matchQ "user" "bob"] ∧
    (∀ leaf : LeafSem,
        evalSearch leaf (KeyValueMatcher_call {} [("user", "fred"), ("user", "bob")]).1 =
          (leaf (.matchQ "user" "fred") && leaf (.matchQ "user" "bob"))) := by
  refine ⟨fun s ps => rfl, rfl, rfl, fun leaf => ?_⟩
  simp [evalSearch, KeyValueMatcher_call, evalQ]

/-- C9: with a stats client present, every instrumented execution emits the
timer start, exactly one counter increment — the success counter on a
normal return, the timeout counter on a ConnectionTimeout, the error
counter on any other exception — and then, on every exit path, the timer
stop and the pipeline send; the outcome (in particular either exception)
is re-propagated to the caller unchanged. -/
theorem instrument_counters_and_propagation :
    (∀ body : ExecOutcome,
        Search_instrument true body =
          ([.timerStart, .incr (Search_instrument_counter body), .timerStop, .send],
            body)) ∧
    Search_instrument_counter .ok = "search.query.success" ∧
    Search_instrument_counter .connectionTimeout = "search.query.timeout" ∧
    Search_instrument_counter .otherError = "search.query.error" ∧
    (∀ body : ExecOutcome,
        ((Search_instrument true body).1.filter isIncr).length = 1) ∧
    (∀ body : ExecOutcome, (Search_instrument true body).2 = body) := by
  exact ⟨fun b => rfl, rfl, rfl, rfl, fun b => rfl, fun b => rfl⟩

/-- C6: the suppression (NIPSA) filter adds one filter-context bool whose
should (OR) set holds (a) not nipsa-flagged and (b) thread_ids exists;
with an authenticated user it also holds (c) term user equal to that user,
and, only when the set of groups that user created is non-empty, (d) terms
group over those created groups; no clause appears when its precondition
fails, and the should list is a disjunction (any one clause admits the
document). -/
theorem nipsafilter_should_clauses :
    (∀ (s : EsSearch) (ps : Params) (gcb : User → List String),
        NipsaFilter_call none gcb s ps =
          ({ s with filters := s.filters ++
              [.boolQ [] []
                [.boolQ [] [.termB "nipsa" true] [], .existsQ "thread_ids"]] }, ps)) ∧
    (∀ (s : EsSearch) (ps : Params) (u : User) (gcb : User → List String),
        gcb u = [] →
        NipsaFilter_call (some u) gcb s ps =
          ({ s with filters := s.filters ++
              [.boolQ [] []
                [.boolQ [] [.termB "nipsa" true] [], .existsQ "thread_ids",
                  .termS "user" u.userid.toLower]] }, ps)) ∧
    (∀ (s : EsSearch) (ps : Params) (u : User) (gcb : User → List String)
        (g : String) (gs : List String),
        gcb u = g :: gs →
        NipsaFilter_call (some u) gcb s ps =
          ({ s with filters := s.filters ++
              [.boolQ [] []
                [.boolQ [] [.termB "nipsa" true] [], .existsQ "thread_ids",
                  .termS "user" u.userid.toLower, .terms "group" (g :: gs)]] }, ps)) ∧
    (∀ (leaf : LeafSem) (c : EsQuery) (cs : List EsQuery),
        evalQ leaf (.boolQ [] [] (c :: cs)) = (evalQ leaf c || evalAny leaf cs)) := by
  refine ⟨fun s ps gcb => rfl, ?_, ?_, ?_⟩
  · intro s ps u gcb h
    simp [NipsaFilter_call, h]
  · intro s ps u gcb g gs h
    simp [NipsaFilter_call, h]
  · intro leaf c cs
    simp [evalQ, evalAll, evalNone, evalAny]

/-- Witness for C6 at a concrete user who created one group: every one of
the four should clauses appears. -/
theorem nipsafilter_should_clauses_witness :
    NipsaFilter_call (some ⟨"acct:Alice@h"⟩) (fun _ => ["g1"]) {} [] =
      ({ ({} : EsSearch) with filters := ({} : EsSearch).filters ++
          [.boolQ [] []
            [.boolQ [] [.termB "nipsa" true] [], .existsQ "thread_ids",
              .termS "user" (User.mk "acct:Alice@h").userid.toLower,
              .terms "group" ("g1" :: [])]] }, []) :=
  (nipsafilter_should_clauses).2.2.1 {} [] ⟨"acct:Alice@h"⟩ (fun _ => ["g1"]) "g1" [] rfl

/-- C5: the wildcard-URI validator accepts a string exactly when it holds
at least one asterisk or underscore, parses with a non-empty scheme, and
has neither asterisk nor underscore in its authority (netloc) component;
in particular it accepts the three documented examples and rejects the
four documented counter-examples and every string with neither wildcard
character. -/
theorem wildcard_validator_spec :
    (∀ u : String,
        wildcard_uri_is_valid u = true ↔
          ((strContains u '*' || strContains u '_') = true ∧
            (urlparse u).scheme ≠ "" ∧
            strContains (urlparse u).netloc '*' = false ∧
            strContains (urlparse u).netloc '_' = false)) ∧
    wildcard_uri_is_valid "http://foo.com/*" = true ∧
    wildcard_uri_is_valid "urn:x-pdf:*" = true ∧
    wildcard_uri_is_valid "file://localhost/_bc.pdf" = true ∧
    wildcard_uri_is_valid "*foo.com" = false ∧
    wildcard_uri_is_valid "u_n:*" = false ∧
    wildcard_uri_is_valid "file://*" = false ∧
    wildcard_uri_is_valid "http://foo.com*" = false ∧
    (∀ u : String, strContains u '*' = false → strContains u '_' = false →
        wildcard_uri_is_valid u = false) := by
  refine ⟨?_, by decide, by decide, by decide, by decide, by decide, by decide,
    by decide, ?_⟩
  · intro u
    unfold wildcard_uri_is_valid
    split_ifs with h1 h2
    · simp only [Bool.and_eq_true, Bool.not_eq_true'] at h1
      simp [h1.1, h1.2]
    · simp only [Bool.or_eq_true, beq_iff_eq] at h2
      simp only [Bool.false_eq_true, false_iff]
      rintro ⟨hor, hsch, hn1, hn2⟩
      rcases h2 with (h2 | h2) | h2
      · exact hsch h2
      · rw [h2] at hn1
        exact Bool.noConfusion hn1
      · rw [h2] at hn2
        exact Bool.noConfusion hn2
    · have h1b : (strContains u '*' || strContains u '_') = true := by
        cases hs : strContains u '*' with
        | true => simp
        | false =>
            cases hu2 : strContains u '_' with
            | true => simp
            | false => exact absurd (by simp [hs, hu2]) h1
      have h2b := h2
      simp only [Bool.or_eq_true, beq_iff_eq, not_or] at h2b
      have h3 : strContains (urlparse u).netloc '*' = false :=
        Bool.eq_false_iff.mpr h2b.1.2
      have h4 : strContains (urlparse u).netloc '_' = false :=
        Bool.eq_false_iff.mpr h2b.2
      simp [h1b, h2b.1.1, h3, h4]
  · intro u h1 h2
    unfold wildcard_uri_is_valid
    simp [h1, h2]

/-- Witness for C5 at a concrete string with neither wildcard character. -/
theorem wildcard_validator_spec_witness :
    wildcard_uri_is_valid "foo.com" = false :=
  (wildcard_validator_spec).2.2.2.2.2.2.2.2 "foo.com" (by decide) (by decide)

/-- C2 (evaluation at the failing input): constructing the default
pipeline does not succeed — while building the modifier chain,
Search.__init__ (core.py line 52) evaluates query.HiddenFilter, a name not
bound in h/search/query.py, whose suppression filter is NipsaFilter; the
construction therefore raises AttributeError before any chain (with the
catch-all last) is installed. -/
theorem search_init_raises_attribute_error :
    Search_init_modifiers =
      Except.error "AttributeError: module h.search.query has no attribute HiddenFilter" ∧
    query_module_attrs.contains "NipsaFilter" = true ∧
    query_module_attrs.contains "HiddenFilter" = false := by
  exact ⟨rfl, by decide, by decide⟩

/-- C3 (evaluation at the failing input): with separate-replies off,
_search_replies returns the empty list without invoking the execution
adapter (the result is the same for every adapter); with it on, building
the replies parameter bag raises NameError, because the webob
MultiDict import on core.py line 7 is commented out, so the described
second query is never executed. -/
theorem search_replies_name_error :
    (∀ (execute : RepliesQuery → List String) (replies_limit : Int)
        (annotation_ids : List String),
        Search_search_replies execute false replies_limit annotation_ids =
          Except.ok []) ∧
    Search_search_replies (fun _ => []) true 200 ["a1", "a2", "a3"] =
      Except.error "NameError: name MultiDict is not defined" ∧
    core_module_globals.contains "MultiDict" = false := by
  exact ⟨fun execute replies_limit annotation_ids => rfl, rfl, by decide⟩

/-- C8 counterexample: UriWildcardFilter reads wildcard_uri with getall,
which does not remove the key, so after the filter runs the key is still
in the bag, and a later catch-all KeyValueMatcher run does reprocess it
into a match clause on the literal field wildcard_uri. -/
theorem uriwildcardfilter_leaves_key_counterexample :
    hasKey (UriWildcardFilter_call (fun u => [u]) (fun u => u) {}
        [("wildcard_uri", "http://foo.com/*")]).2 "wildcard_uri" = true ∧
    (KeyValueMatcher_call
        (UriWildcardFilter_call (fun u => [u]) (fun u => u) {}
          [("wildcard_uri", "http://foo.com/*")]).1
        (UriWildcardFilter_call (fun u => [u]) (fun u => u) {}
          [("wildcard_uri", "http://foo.com/*")]).2).1.filters =
      [.matchQ "wildcard_uri" "http://foo.com/*"] := by
  exact ⟨rfl, rfl⟩

/-- C8 amended: UriWildcardFilter reads all wildcard_uri values without
removing the key from the bag (which is returned unchanged), expands each
supplied uri through the equivalence lookup, normalizes each expansion,
unions the normalized forms, and adds one query-context bool holding one
wildcard-pattern clause per normalized uri, combined with OR across the
patterns. -/
theorem uriwildcardfilter_amended :
    (∀ (expand_uri : String → List String) (normalize : String → String)
        (s : EsSearch) (ps : Params),
        UriWildcardFilter_call expand_uri normalize s ps =
          ({ s with musts := s.musts ++
              [.boolQ [] []
                ((wildcardUris expand_uri normalize (getall ps "wildcard_uri")).map
                  (fun u => EsQuery.wildcardQ "target.scope" u))] }, ps)) ∧
    (∀ (leaf : LeafSem) (u1 u2 : String),
        evalQ leaf (.boolQ [] []
            [.wildcardQ "target.scope" u1, .wildcardQ "target.scope" u2]) =
          (leaf (.wildcardQ "target.scope" u1) ||
            leaf (.wildcardQ "target.scope" u2))) := by
  refine ⟨fun expand_uri normalize s ps => rfl, fun leaf u1 u2 => ?_⟩
  simp [evalQ, evalAll, evalNone, evalAny]
